import Mathlib

/-!
Verification development for the Zen broadband outage tracker
(`tracker.py`).  The repository's core is `parse_page`, which extracts
outage rows from three HTML tables, parses their date cells with
`parse_date` (Python `datetime.strptime` with format `%d/%m/%Y %H:%M`),
filters the rows by a two-day recency window and returns three buckets
(current, planned, past).  `report` renders the retained records as text
lines.

The embedding below models:
  * Python `datetime.date` / `datetime.datetime` values at minute
    precision, with `date.toordinal` arithmetic used by date subtraction;
  * CPython `strptime` for the fixed format `%d/%m/%Y %H:%M`: each
    numeric directive matches the regular expression CPython builds for
    it (`%d`: `3[01]|[12]\d|0[1-9]|[1-9]`, `%m`: `1[0-2]|0[1-9]|[1-9]`,
    `%Y`: `\d\d\d\d`, `%H`: `2[0-3]|[0-1]\d|\d`, `%M`: `[0-5]\d|\d`), a
    whitespace run in the format matches one or more characters of the
    Unicode whitespace class (`isSpaceChar` below, exactly CPython's
    `\s` for str patterns), the whole string must be consumed, and the
    resulting fields must form a valid `datetime` (day within the
    month, year at least 1).  Because every numeric field is followed
    by a non-digit delimiter (or the end of the string), the
    regular-expression semantics coincide with reading the maximal
    digit run at each position and checking its length and value, which
    is how `parseDateChars` below is written.  The model reads `\d` as
    the ASCII digits `0`-`9`; CPython's `\d` also matches the decimal
    digits of other scripts (Unicode category Nd, all of which lie at
    or above U+0660), so the theorem that characterizes the accepted
    set exactly is stated for strings whose characters lie below
    U+0660, where the two digit classes agree;
  * the HTML document, after `lxml` parsing and the fixed `xpath`
    queries, as a list of tables, each a list of rows, each a list of
    cells carrying `.text` (possibly absent) and `.text_content()`;
  * all row-level failures (IndexError on a short row, TypeError on a
    missing text, ValueError from `strptime`) as the single
    `PageError.rowFormatError`, the spec's `RowFormatError` which also
    subsumes `FormatError` during row parsing;
  * `report` as the list of lines printed to standard output.
-/

namespace ZenTracker

/-- Python `datetime.date`: a calendar date. -/
structure Date where
  year : Nat
  month : Nat
  day : Nat
deriving DecidableEq, Repr

/-- Python `datetime.datetime` at minute precision (seconds and
microseconds are always zero in this program: `strptime` with a format
that has no `%S` leaves them zero). -/
structure DateTime where
  year : Nat
  month : Nat
  day : Nat
  hour : Nat
  minute : Nat
deriving DecidableEq, Repr

/-- Python `calendar`/`datetime` leap-year rule. -/
def isLeap (y : Nat) : Bool :=
  y % 4 = 0 && (y % 100 != 0 || y % 400 = 0)

/-- Days in a month, as in CPython `datetime._days_in_month`. -/
def daysInMonth (y m : Nat) : Nat :=
  if m = 2 then (if isLeap y then 29 else 28)
  else if m = 4 ∨ m = 6 ∨ m = 9 ∨ m = 11 then 30
  else 31

/-- Days in the given year before the first of the given month, as in
CPython `datetime._days_before_month`. -/
def daysBeforeMonth (y : Nat) : Nat → Nat
  | 0 => 0
  | 1 => 0
  | m + 2 => daysBeforeMonth y (m + 1) + daysInMonth y (m + 1)

/-- Days before January 1st of the given year, as in CPython
`datetime._days_before_year`. -/
def daysBeforeYear (y : Nat) : Nat :=
  365 * (y - 1) + (y - 1) / 4 - (y - 1) / 100 + (y - 1) / 400

/-- CPython `date.toordinal`: proleptic Gregorian ordinal of the date.
Python subtracts two `date`s by subtracting their ordinals, giving a
`timedelta` in whole days. -/
def toOrdinal (d : Date) : Nat :=
  daysBeforeYear d.year + daysBeforeMonth d.year d.month + d.day

/-- Python `datetime.date()`: drop the time-of-day. -/
def dateOf (dt : DateTime) : Date :=
  ⟨dt.year, dt.month, dt.day⟩

/-- Decimal value of an ASCII digit character. -/
def digitVal (c : Char) : Nat := c.toNat - 48

/-- Decimal value of a run of ASCII digit characters (empty run: 0). -/
def digitsVal (cs : List Char) : Nat :=
  cs.foldl (fun a c => 10 * a + digitVal c) 0

/-- Split off the maximal leading run of ASCII digits. -/
def takeDigits : List Char → List Char × List Char
  | [] => ([], [])
  | c :: cs =>
    if c.isDigit then
      let p := takeDigits cs
      (c :: p.1, p.2)
    else ([], c :: cs)

/-- CPython regular-expression `\s` for str patterns: the Unicode
whitespace set (the same class as `str.isspace`): TAB through CR, the
separators U+001C-U+001F, space, NEL (U+0085), NBSP (U+00A0), Ogham
space mark (U+1680), the typographic spaces U+2000-U+200A, the line
and paragraph separators U+2028/U+2029, U+202F, U+205F and the
ideographic space U+3000. -/
def isSpaceChar (c : Char) : Bool :=
  decide ((0x09 ≤ c.toNat ∧ c.toNat ≤ 0x0d) ∨
    (0x1c ≤ c.toNat ∧ c.toNat ≤ 0x20) ∨
    c.toNat = 0x85 ∨ c.toNat = 0xa0 ∨ c.toNat = 0x1680 ∨
    (0x2000 ≤ c.toNat ∧ c.toNat ≤ 0x200a) ∨ c.toNat = 0x2028 ∨
    c.toNat = 0x2029 ∨ c.toNat = 0x202f ∨ c.toNat = 0x205f ∨
    c.toNat = 0x3000)

/-- Split off the maximal leading run of whitespace characters. -/
def takeSpaces : List Char → List Char × List Char
  | [] => ([], [])
  | c :: cs =>
    if isSpaceChar c then
      let p := takeSpaces cs
      (c :: p.1, p.2)
    else ([], c :: cs)

/-- CPython `strptime` with format `%d/%m/%Y %H:%M`, on the character
list of the input.  Each numeric field is the maximal digit run at its
position; the length and value checks are exactly the sets of strings
matched by CPython's per-directive regular expressions (see the module
docstring), `\s+` matches the whitespace run (the full Unicode class,
via `isSpaceChar`), the whole input must be consumed, and the final
`datetime(year, month, day, hour, minute)` construction requires
`1 <= year` and `day <= daysInMonth` (`%Y` guarantees `year <= 9999`).
Digits are the ASCII `0`-`9`; CPython's `\d` additionally accepts
Unicode category-Nd digits (all at or above U+0660) in the `\d` slots
of the directives, which this model does not, so exact-acceptance
statements are scoped to strings below U+0660 (see the module
docstring). -/
def parseDateChars (cs : List Char) : Option DateTime :=
  let dds := (takeDigits cs).1
  match (takeDigits cs).2 with
  | [] => none
  | c1 :: r1 =>
    if c1 = '/' then
      let mds := (takeDigits r1).1
      match (takeDigits r1).2 with
      | [] => none
      | c2 :: r2 =>
        if c2 = '/' then
          let yds := (takeDigits r2).1
          let r3 := (takeDigits r2).2
          let sps := (takeSpaces r3).1
          let r4 := (takeSpaces r3).2
          let hds := (takeDigits r4).1
          match (takeDigits r4).2 with
          | [] => none
          | c3 :: r5 =>
            if c3 = ':' then
              let mids := (takeDigits r5).1
              if (takeDigits r5).2 = [] ∧
                  dds.length ≤ 2 ∧ 1 ≤ digitsVal dds ∧ digitsVal dds ≤ 31 ∧
                  mds.length ≤ 2 ∧ 1 ≤ digitsVal mds ∧ digitsVal mds ≤ 12 ∧
                  yds.length = 4 ∧ 1 ≤ sps.length ∧
                  1 ≤ hds.length ∧ hds.length ≤ 2 ∧ digitsVal hds ≤ 23 ∧
                  1 ≤ mids.length ∧ mids.length ≤ 2 ∧ digitsVal mids ≤ 59 ∧
                  1 ≤ digitsVal yds ∧
                  digitsVal dds ≤ daysInMonth (digitsVal yds) (digitsVal mds) then
                some ⟨digitsVal yds, digitsVal mds, digitsVal dds,
                      digitsVal hds, digitsVal mids⟩
              else none
            else none
        else none
    else none

/-- Embedding of `tracker.parse_date`:
`datetime.strptime(datestr, "%d/%m/%Y %H:%M")`, returning `none` where
Python raises `ValueError`. -/
def parse_date (s : String) : Option DateTime :=
  parseDateChars s.data

/-- One table cell, as seen through `lxml`: `.text` is the element's
direct leading text (absent for an empty or element-first cell, where
`lxml` yields `None`), `.text_content()` is the full recursive text. -/
structure Cell where
  text : Option String
  text_content : String
deriving DecidableEq, Repr

/-- One table of the parsed document: its `id` attribute and the rows
produced by the query `//table[@id=...]//tbody//tr`, each row the list
of its cells in document order. -/
structure Table where
  id : String
  rows : List (List Cell)
deriving DecidableEq, Repr

/-- Element id of the past-outages table (`tracker.py` line 40). -/
def pastGrid : String :=
  "ctl00_ctl00_ContentPlaceholderColumnTwo_PageContent_pastOutagesGridView"

/-- Element id of the planned-outages table (`tracker.py` line 50). -/
def plannedGrid : String :=
  "ctl00_ctl00_ContentPlaceholderColumnTwo_PageContent_plannedOutagesGridView"

/-- Element id of the current-outages table (`tracker.py` line 60). -/
def currentGrid : String :=
  "ctl00_ctl00_ContentPlaceholderColumnTwo_PageContent_currentOutagesGridView"

/-- The rows the xpath query for a given grid id returns: the rows of
every table in the document carrying that id, in document order.  An
absent table contributes nothing, so an absent or empty table yields
`[]`. -/
def tableRows (doc : List Table) (gridname : String) : List (List Cell) :=
  (doc.filter (fun t => t.id = gridname)).flatMap Table.rows

/-- The spec's `RowFormatError`: any failure while parsing a row of a
recognized table (a short row's IndexError, a missing cell text's
TypeError, or `strptime`'s ValueError, which the spec's `FormatError`
taxonomy subsumes into `RowFormatError` during row parsing).  All abort
the whole extraction. -/
inductive PageError where
  | rowFormatError
deriving DecidableEq, Repr

/-- One extracted outage record (the `issue` dict of `parse_page`):
`issue_type` is cell 1's `.text`, `reference` cell 2's
`.text_content()`, `start`/`end_` the parsed dates of cells 3 and 4
(Python key `'end'`, renamed because `end` is a Lean keyword), `codes`
cell 5's `.text`. -/
structure Issue where
  issue_type : Option String
  reference : String
  start : DateTime
  end_ : DateTime
  codes : Option String
deriving DecidableEq, Repr

/-- The three result buckets: `parse_page` returns the Python list
`[current, planned, past]`. -/
structure Issues where
  current : List Issue
  planned : List Issue
  past : List Issue
deriving DecidableEq, Repr

/-- The per-row body of each loop in `parse_page` (lines 42-47 and the
two copies): read cells 0-4, parse cells 2 and 3 as dates; any missing
cell or unparseable date raises, aborting the extraction. -/
def parseRow (row : List Cell) : Except PageError Issue :=
  match row[0]?, row[1]?, row[2]?, row[3]?, row[4]? with
  | some c0, some c1, some c2, some c3, some c4 =>
    match c2.text with
    | none => .error .rowFormatError
    | some s2 =>
      match parse_date s2 with
      | none => .error .rowFormatError
      | some dstart =>
        match c3.text with
        | none => .error .rowFormatError
        | some s3 =>
          match parse_date s3 with
          | none => .error .rowFormatError
          | some dend => .ok ⟨c0.text, c1.text_content, dstart, dend, c4.text⟩
  | _, _, _, _, _ => .error .rowFormatError

/-- The recency filter (`tracker.py` lines 48, 58, 68):
`issue['start'].date() - today < timedelta(days=2) and
 today - issue['end'].date() < timedelta(days=2)`.
Python date subtraction is ordinal subtraction (a signed whole number
of days), compared strictly against 2 days. -/
def keep (today : Date) (i : Issue) : Bool :=
  decide ((toOrdinal (dateOf i.start) : Int) - (toOrdinal today : Int) < 2) &&
  decide ((toOrdinal today : Int) - (toOrdinal (dateOf i.end_) : Int) < 2)

/-- One of the three row loops of `parse_page`: parse each row in
order, appending the rows that pass the recency filter; the first
failing row aborts the whole extraction. -/
def parseTable (today : Date) : List (List Cell) → Except PageError (List Issue)
  | [] => .ok []
  | r :: rs =>
    match parseRow r with
    | .error e => .error e
    | .ok i =>
      match parseTable today rs with
      | .error e => .error e
      | .ok l => .ok (if keep today i then i :: l else l)

/-- Embedding of `tracker.parse_page`, with `date.today()` passed explicitly and the
document abstracted past the HTML parse: processes the past table, then
the planned table, then the current table (the source's order), and
returns the Python list `issues = [current, planned, past]`. -/
def parse_page (doc : List Table) (today : Date) : Except PageError Issues :=
  match parseTable today (tableRows doc pastGrid) with
  | .error e => .error e
  | .ok pa =>
    match parseTable today (tableRows doc plannedGrid) with
    | .error e => .error e
    | .ok pl =>
      match parseTable today (tableRows doc currentGrid) with
      | .error e => .error e
      | .ok cu => .ok ⟨cu, pl, pa⟩

/-- The list a successful bucket is: the rows that parse, in source
order, restricted to those passing the recency filter. -/
def extractKept (today : Date) (rows : List (List Cell)) : List Issue :=
  (rows.filterMap (fun r => (parseRow r).toOption)).filter (keep today)

/-- The bucket of the result that corresponds to a grid id. -/
def bucketFor (g : String) (b : Issues) : List Issue :=
  if g = currentGrid then b.current
  else if g = plannedGrid then b.planned
  else if g = pastGrid then b.past
  else []

/-- Zero-padded two-digit decimal rendering (for `n < 100`). -/
def pad2 (n : Nat) : List Char :=
  [Nat.digitChar (n / 10), Nat.digitChar (n % 10)]

/-- Zero-padded four-digit decimal rendering (for `n < 10000`). -/
def pad4 (n : Nat) : List Char :=
  [Nat.digitChar (n / 1000), Nat.digitChar (n / 100 % 10),
   Nat.digitChar (n / 10 % 10), Nat.digitChar (n % 10)]

/-- Python `datetime.isoformat()` for the datetimes this program
builds (seconds and microseconds zero): `YYYY-MM-DDTHH:MM:SS`. -/
def isoformat (dt : DateTime) : String :=
  String.mk (pad4 dt.year ++ '-' :: pad2 dt.month ++ '-' :: pad2 dt.day ++
    'T' :: pad2 dt.hour ++ ':' :: pad2 dt.minute ++ [':', '0', '0'])

/-- The details-URL suffix of `report`: Python `issue['reference'][2:]`,
the reference with its first two characters removed (slicing never
fails; a short string just yields `""`). -/
def outageId (reference : String) : String :=
  String.mk (reference.data.drop 2)

/-- Fixed base of the details URL in `report`. -/
def detailsBase : String :=
  "https://status.zen.co.uk/broadband/maintenance-outage-details.aspx?reference="

/-- The `message` string `report` builds for an issue. -/
def detailMessage (i : Issue) : String :=
  "Outage " ++ i.reference ++ " planned to start at " ++
    isoformat i.start ++ " and end at " ++
    isoformat i.end_ ++ ". Hopefully check " ++
    "reference " ++ i.reference ++ " at " ++
    detailsBase ++ outageId i.reference

/-- Embedding of `tracker.report` as the list of lines it prints: for each current
issue only the status line (the detail `message` is built but never
printed, a known quirk), for each planned and past issue the status
line followed by the detail message. -/
def report (issues : Issues) : List String :=
  issues.current.map (fun i => "Outage current at " ++ isoformat i.start) ++
  issues.planned.flatMap
    (fun i => ["Outage planned at " ++ isoformat i.start, detailMessage i]) ++
  issues.past.flatMap
    (fun i => ["Outage complete, ended at " ++ isoformat i.end_, detailMessage i])

/-- Modelled from the spec: `date_to_fixed_string`, the canonical
zero-padded rendering `DD/MM/YYYY HH:MM` of a date-time (§4.1, §8);
this helper is named by the spec's round-trip property and is not part
of `tracker.py`. -/
def renderFixed (dt : DateTime) : String :=
  String.mk (pad2 dt.day ++ '/' :: pad2 dt.month ++ '/' :: pad4 dt.year ++
    ' ' :: pad2 dt.hour ++ ':' :: pad2 dt.minute)

/-- Shorthand for a cell whose direct text and full text agree. -/
def cellT (s : String) : Cell := ⟨some s, s⟩

/-- Sample run date used by the concrete instances below. -/
def sampleToday : Date := ⟨2024, 1, 10⟩

/-- A row whose outage spans the sample day: retained by the filter. -/
def sampleRowKept : List Cell :=
  [cellT "Fault", cellT "CR12345", cellT "10/01/2024 08:00",
   cellT "10/01/2024 18:00", cellT "X1"]

/-- The record `sampleRowKept` parses to. -/
def sampleIssueKept : Issue :=
  ⟨some "Fault", "CR12345", ⟨2024, 1, 10, 8, 0⟩, ⟨2024, 1, 10, 18, 0⟩,
   some "X1"⟩

/-- A row starting five days after the sample day: dropped. -/
def sampleRowLate : List Cell :=
  [cellT "Maintenance", cellT "CR99999", cellT "15/01/2024 08:00",
   cellT "16/01/2024 18:00", cellT "Y2"]

/-- A row with only four cells. -/
def sampleRowShort : List Cell :=
  [cellT "Fault", cellT "CR11111", cellT "10/01/2024 08:00",
   cellT "10/01/2024 18:00"]

theorem takeDigits_append (ds rest : List Char)
    (h1 : ∀ c ∈ ds, c.isDigit = true)
    (h2 : ∀ c, rest.head? = some c → c.isDigit = false) :
    takeDigits (ds ++ rest) = (ds, rest) := by
  induction ds with
  | nil =>
    cases rest with
    | nil => rfl
    | cons c cs => simp [takeDigits, h2 c rfl]
  | cons d ds ih =>
    have hd : d.isDigit = true := h1 d (List.mem_cons_self d ds)
    have := ih (fun c hc => h1 c (List.mem_cons_of_mem d hc))
    simp [takeDigits, hd, this]

theorem takeSpaces_append (ss rest : List Char)
    (h1 : ∀ c ∈ ss, isSpaceChar c = true)
    (h2 : ∀ c, rest.head? = some c → isSpaceChar c = false) :
    takeSpaces (ss ++ rest) = (ss, rest) := by
  induction ss with
  | nil =>
    cases rest with
    | nil => rfl
    | cons c cs => simp [takeSpaces, h2 c rfl]
  | cons s ss ih =>
    have hs : isSpaceChar s = true := h1 s (List.mem_cons_self s ss)
    have := ih (fun c hc => h1 c (List.mem_cons_of_mem s hc))
    simp [takeSpaces, hs, this]

theorem digitChar_isDigit {k : Nat} (h : k ≤ 9) :
    (Nat.digitChar k).isDigit = true := by
  interval_cases k <;> decide

theorem digitVal_digitChar {k : Nat} (h : k ≤ 9) :
    digitVal (Nat.digitChar k) = k := by
  interval_cases k <;> decide

theorem isSpaceChar_digitChar {k : Nat} (h : k ≤ 9) :
    isSpaceChar (Nat.digitChar k) = false := by
  interval_cases k <;> decide

theorem isDigit_iff_toNat (c : Char) :
    c.isDigit = true ↔ 48 ≤ c.toNat ∧ c.toNat ≤ 57 := by
  simp [Char.isDigit, Char.toNat, UInt32.le_def, BitVec.le_def, UInt32.toNat]

theorem isDigit_not_space {c : Char} (h : c.isDigit = true) :
    isSpaceChar c = false := by
  rw [isDigit_iff_toNat] at h
  simp only [isSpaceChar, decide_eq_false_iff_not]
  omega

theorem pad2_all_digit {n : Nat} (h : n < 100) :
    ∀ c ∈ pad2 n, c.isDigit = true := by
  intro c hc
  simp only [pad2, List.mem_cons, List.not_mem_nil, or_false] at hc
  rcases hc with h1 | h1 <;> subst h1 <;>
    exact digitChar_isDigit (by omega)

theorem pad4_all_digit {n : Nat} (h : n < 10000) :
    ∀ c ∈ pad4 n, c.isDigit = true := by
  intro c hc
  simp only [pad4, List.mem_cons, List.not_mem_nil, or_false] at hc
  rcases hc with h1 | h1 | h1 | h1 <;> subst h1 <;>
    exact digitChar_isDigit (by omega)

theorem digitsVal_pad2 {n : Nat} (h : n < 100) :
    digitsVal (pad2 n) = n := by
  simp only [pad2, digitsVal, List.foldl_cons, List.foldl_nil,
    digitVal_digitChar (show n / 10 ≤ 9 by omega),
    digitVal_digitChar (show n % 10 ≤ 9 by omega)]
  omega

theorem digitsVal_pad4 {n : Nat} (h : n < 10000) :
    digitsVal (pad4 n) = n := by
  simp only [pad4, digitsVal, List.foldl_cons, List.foldl_nil,
    digitVal_digitChar (show n / 1000 ≤ 9 by omega),
    digitVal_digitChar (show n / 100 % 10 ≤ 9 by omega),
    digitVal_digitChar (show n / 10 % 10 ≤ 9 by omega),
    digitVal_digitChar (show n % 10 ≤ 9 by omega)]
  omega

theorem daysInMonth_le_31 (y m : Nat) : daysInMonth y m ≤ 31 := by
  unfold daysInMonth
  split
  · split <;> omega
  · split <;> omega

theorem extractKept_cons_ok (today : Date) {r : List Cell} (rs : List (List Cell))
    {i : Issue} (h : parseRow r = .ok i) :
    extractKept today (r :: rs) =
      if keep today i then i :: extractKept today rs else extractKept today rs := by
  simp only [extractKept, List.filterMap_cons, h, Except.toOption, List.filter_cons]

theorem extractKept_cons_err (today : Date) {r : List Cell} (rs : List (List Cell))
    {e : PageError} (h : parseRow r = .error e) :
    extractKept today (r :: rs) = extractKept today rs := by
  simp only [extractKept, List.filterMap_cons, h, Except.toOption]

theorem parseTable_ok_iff (today : Date) (rows : List (List Cell)) (l : List Issue) :
    parseTable today rows = .ok l ↔
      ((∀ r ∈ rows, (parseRow r).isOk = true) ∧ l = extractKept today rows) := by
  induction rows generalizing l with
  | nil =>
    constructor
    · intro h; injection h with h; exact ⟨by simp, h.symm⟩
    · rintro ⟨-, rfl⟩; rfl
  | cons r rs ih =>
    cases hr : parseRow r with
    | error e =>
      simp [parseTable, hr, List.forall_mem_cons, Except.isOk, Except.toBool]
    | ok i =>
      cases hrs : parseTable today rs with
      | error e =>
        simp only [parseTable, hr, hrs]
        constructor
        · intro h; cases h
        · rintro ⟨hall, -⟩
          have hok : parseTable today rs = .ok (extractKept today rs) :=
            (ih _).mpr ⟨fun x hx => hall x (List.mem_cons_of_mem r hx), rfl⟩
          rw [hok] at hrs; cases hrs
      | ok l' =>
        obtain ⟨hall', hl'⟩ := (ih l').mp hrs
        subst hl'
        simp only [parseTable, hr, hrs, extractKept_cons_ok today rs hr]
        constructor
        · intro h
          injection h with h
          exact ⟨List.forall_mem_cons.mpr
            ⟨by simp [hr, Except.isOk, Except.toBool], hall'⟩, h.symm⟩
        · rintro ⟨-, hl⟩
          exact congrArg Except.ok hl.symm

theorem parse_page_ok_iff (doc : List Table) (today : Date) (b : Issues) :
    parse_page doc today = .ok b ↔
      ((∀ g ∈ [pastGrid, plannedGrid, currentGrid],
          ∀ r ∈ tableRows doc g, (parseRow r).isOk = true) ∧
        b = ⟨extractKept today (tableRows doc currentGrid),
             extractKept today (tableRows doc plannedGrid),
             extractKept today (tableRows doc pastGrid)⟩) := by
  constructor
  · intro h
    unfold parse_page at h
    cases hpa : parseTable today (tableRows doc pastGrid) with
    | error e => rw [hpa] at h; cases h
    | ok pa =>
      rw [hpa] at h
      cases hpl : parseTable today (tableRows doc plannedGrid) with
      | error e => rw [hpl] at h; cases h
      | ok pl =>
        rw [hpl] at h
        cases hcu : parseTable today (tableRows doc currentGrid) with
        | error e => rw [hcu] at h; cases h
        | ok cu =>
          rw [hcu] at h
          injection h with h
          obtain ⟨hpa1, hpa2⟩ := (parseTable_ok_iff _ _ _).mp hpa
          obtain ⟨hpl1, hpl2⟩ := (parseTable_ok_iff _ _ _).mp hpl
          obtain ⟨hcu1, hcu2⟩ := (parseTable_ok_iff _ _ _).mp hcu
          subst h
          refine ⟨?_, by rw [hpa2, hpl2, hcu2]⟩
          intro g hg
          simp only [List.mem_cons, List.not_mem_nil, or_false] at hg
          rcases hg with rfl | rfl | rfl
          exacts [hpa1, hpl1, hcu1]
  · rintro ⟨hall, rfl⟩
    have hpa :=
      (parseTable_ok_iff today (tableRows doc pastGrid) _).mpr
        ⟨hall pastGrid (by simp), rfl⟩
    have hpl :=
      (parseTable_ok_iff today (tableRows doc plannedGrid) _).mpr
        ⟨hall plannedGrid (by simp), rfl⟩
    have hcu :=
      (parseTable_ok_iff today (tableRows doc currentGrid) _).mpr
        ⟨hall currentGrid (by simp), rfl⟩
    unfold parse_page
    rw [hpa, hpl, hcu]

theorem parseRow_of_short {row : List Cell} (h : row.length ≤ 4) :
    parseRow row = .error .rowFormatError := by
  rcases row with _ | ⟨a, _ | ⟨b, _ | ⟨c, _ | ⟨d, _ | ⟨e, t⟩⟩⟩⟩⟩
  · rfl
  · rfl
  · rfl
  · rfl
  · rfl
  · simp only [List.length_cons] at h; omega

theorem pageError_eq (e : PageError) : e = .rowFormatError := by
  cases e; rfl

theorem parseRow_take_five (row : List Cell) :
    parseRow row = parseRow (row.take 5) := by
  have h0 : (row.take 5)[0]? = row[0]? := List.getElem?_take_of_lt (by omega)
  have h1 : (row.take 5)[1]? = row[1]? := List.getElem?_take_of_lt (by omega)
  have h2 : (row.take 5)[2]? = row[2]? := List.getElem?_take_of_lt (by omega)
  have h3 : (row.take 5)[3]? = row[3]? := List.getElem?_take_of_lt (by omega)
  have h4 : (row.take 5)[4]? = row[4]? := List.getElem?_take_of_lt (by omega)
  simp only [parseRow, h0, h1, h2, h3, h4]

theorem parseRow_congr {r1 r2 : List Cell} (h : r1.take 5 = r2.take 5) :
    parseRow r1 = parseRow r2 := by
  rw [parseRow_take_five r1, parseRow_take_five r2, h]

theorem parseTable_congr (today : Date) {rows1 rows2 : List (List Cell)}
    (h : List.Forall₂ (fun a b => a.take 5 = b.take 5) rows1 rows2) :
    parseTable today rows1 = parseTable today rows2 := by
  induction h with
  | nil => rfl
  | cons hab htail ih =>
    simp only [parseTable, parseRow_congr hab, ih]

theorem bucketFor_eq (b : Issues) :
    bucketFor pastGrid b = b.past ∧ bucketFor plannedGrid b = b.planned ∧
    bucketFor currentGrid b = b.current := by
  refine ⟨?_, ?_, ?_⟩ <;> unfold bucketFor
  · rw [if_neg (by decide), if_neg (by decide), if_pos rfl]
  · rw [if_neg (by decide), if_pos rfl]
  · rw [if_pos rfl]

theorem length_flatMap_pair {α β : Type} (f g : α → β) (l : List α) :
    (l.flatMap (fun a => [f a, g a])).length = 2 * l.length := by
  induction l with
  | nil => rfl
  | cons a l ih =>
    simp only [List.flatMap_cons, List.length_append, List.length_cons,
      List.length_nil, ih]
    omega

theorem isSpace_not_digit {c : Char} (h : isSpaceChar c = true) :
    c.isDigit = false := by
  cases hd : c.isDigit with
  | false => rfl
  | true =>
    rw [isDigit_iff_toNat] at hd
    simp only [isSpaceChar, decide_eq_true_eq] at h
    exact absurd h (by omega)

theorem head_cons_not_digit {x : Char} (hx : x.isDigit = false)
    (l : List Char) : ∀ c, (x :: l).head? = some c → c.isDigit = false := by
  intro c hc
  simp only [List.head?_cons, Option.some.injEq] at hc
  rw [← hc]
  exact hx

theorem head_cons_not_space {x : Char} (hx : isSpaceChar x = false)
    (l : List Char) : ∀ c, (x :: l).head? = some c → isSpaceChar c = false := by
  intro c hc
  simp only [List.head?_cons, Option.some.injEq] at hc
  rw [← hc]
  exact hx

theorem takeDigits_all (ds : List Char) (h : ∀ c ∈ ds, c.isDigit = true) :
    takeDigits ds = (ds, []) := by
  have := takeDigits_append ds [] h (by intro c hc; simp at hc)
  simpa using this

theorem parseDateChars_of_shape
    (dds mds yds sps hds mids : List Char)
    (hdd : ∀ c ∈ dds, c.isDigit = true) (hmd : ∀ c ∈ mds, c.isDigit = true)
    (hyd : ∀ c ∈ yds, c.isDigit = true) (hsp : ∀ c ∈ sps, isSpaceChar c = true)
    (hhd : ∀ c ∈ hds, c.isDigit = true) (hmi : ∀ c ∈ mids, c.isDigit = true)
    (hl1 : dds.length ≤ 2) (hv1 : 1 ≤ digitsVal dds) (hv2 : digitsVal dds ≤ 31)
    (hl2 : mds.length ≤ 2) (hv3 : 1 ≤ digitsVal mds) (hv4 : digitsVal mds ≤ 12)
    (hl3 : yds.length = 4) (hl4 : 1 ≤ sps.length)
    (hl5 : 1 ≤ hds.length) (hl6 : hds.length ≤ 2) (hv5 : digitsVal hds ≤ 23)
    (hl7 : 1 ≤ mids.length) (hl8 : mids.length ≤ 2) (hv6 : digitsVal mids ≤ 59)
    (hv7 : 1 ≤ digitsVal yds)
    (hv8 : digitsVal dds ≤ daysInMonth (digitsVal yds) (digitsVal mds)) :
    parseDateChars
        (dds ++ '/' :: (mds ++ '/' :: (yds ++ (sps ++ (hds ++ ':' :: mids))))) =
      some ⟨digitsVal yds, digitsVal mds, digitsVal dds, digitsVal hds,
            digitsVal mids⟩ := by
  obtain ⟨s0, stail, rfl⟩ : ∃ a t, sps = a :: t := by
    cases sps with
    | nil => simp at hl4
    | cons a t => exact ⟨a, t, rfl⟩
  obtain ⟨h0, htl, rfl⟩ : ∃ a t, hds = a :: t := by
    cases hds with
    | nil => simp at hl5
    | cons a t => exact ⟨a, t, rfl⟩
  have hs0 : isSpaceChar s0 = true := hsp s0 (List.mem_cons_self _ _)
  have hh0 : h0.isDigit = true := hhd h0 (List.mem_cons_self _ _)
  have e1 := takeDigits_append dds
    ('/' :: (mds ++ '/' :: (yds ++ (s0 :: (stail ++ (h0 :: (htl ++ ':' :: mids)))))))
    hdd (head_cons_not_digit (by decide) _)
  have e2 := takeDigits_append mds
    ('/' :: (yds ++ (s0 :: (stail ++ (h0 :: (htl ++ ':' :: mids))))))
    hmd (head_cons_not_digit (by decide) _)
  have e3 := takeDigits_append yds
    (s0 :: (stail ++ (h0 :: (htl ++ ':' :: mids))))
    hyd (head_cons_not_digit (isSpace_not_digit hs0) _)
  have e4 := takeSpaces_append (s0 :: stail) (h0 :: (htl ++ ':' :: mids))
    hsp (head_cons_not_space (isDigit_not_space hh0) _)
  have e5 := takeDigits_append (h0 :: htl) (':' :: mids)
    hhd (head_cons_not_digit (by decide) _)
  have e6 := takeDigits_all mids hmi
  simp only [List.cons_append, List.append_assoc] at e1 e2 e3 e4 e5 ⊢
  simp only [parseDateChars, e1, e2, e3, e4, e5, e6, if_true,
    eq_self_iff_true]
  split
  · rfl
  · rename_i hcond
    exact absurd ⟨trivial, hl1, hv1, hv2, hl2, hv3, hv4, hl3, hl4, hl5, hl6,
      hv5, hl7, hl8, hv6, hv7, hv8⟩ hcond

example : parse_date "10/01/2024 08:00" = some ⟨2024, 1, 10, 8, 0⟩ := by decide
example : parse_date "1/1/2020 0:0" = some ⟨2020, 1, 1, 0, 0⟩ := by decide
example : parse_date "29/02/2020 23:59" = some ⟨2020, 2, 29, 23, 59⟩ := by decide
example : parse_date "29/02/2021 10:00" = none := by decide
example : parse_date "10-01-2024 08:00" = none := by decide
example : parse_date "10/01/2024 08:00x" = none := by decide
example : parse_date "10/01/202 08:00" = none := by decide
example : parse_date "10/01/20245 08:00" = none := by decide
example : parse_date "32/01/2024 08:00" = none := by decide
example : parse_date "10/13/2024 08:00" = none := by decide
example : parse_date "10/01/2024 24:00" = none := by decide
example : parse_date "10/01/2024 08:60" = none := by decide
example : parse_date "10/01/0000 08:00" = none := by decide
example : parse_date "00/01/2024 08:00" = none := by decide
example : parse_date "10/01/2024  08:00" = some ⟨2024, 1, 10, 8, 0⟩ := by decide
example : parse_date "10/01/2024\u00A008:00" = some ⟨2024, 1, 10, 8, 0⟩ := by
  decide
example : parse_date "10/01/2024\x1c08:00" = some ⟨2024, 1, 10, 8, 0⟩ := by
  decide
example : parse_date "" = none := by decide

/-- Claim C1: for any document whose recognized table rows all parse,
the extraction succeeds and each bucket retains exactly those parsed
rows of its table that satisfy the recency filter `keep` — the strict
comparisons `start.date() - today < 2 days` and
`today - end.date() < 2 days` — in source order; rows failing the
filter are silently dropped, never reported as an error. -/
theorem c1_retention_iff_filter (doc : List Table) (today : Date)
    (h : ∀ g ∈ [pastGrid, plannedGrid, currentGrid],
      ∀ r ∈ tableRows doc g, (parseRow r).isOk = true) :
    parse_page doc today =
      .ok ⟨((tableRows doc currentGrid).filterMap
              (fun r => (parseRow r).toOption)).filter (keep today),
           ((tableRows doc plannedGrid).filterMap
              (fun r => (parseRow r).toOption)).filter (keep today),
           ((tableRows doc pastGrid).filterMap
              (fun r => (parseRow r).toOption)).filter (keep today)⟩ :=
  (parse_page_ok_iff doc today _).mpr ⟨h, rfl⟩

theorem c1_retention_iff_filter_witness :
    (∀ g ∈ [pastGrid, plannedGrid, currentGrid],
      ∀ r ∈ tableRows [⟨currentGrid, [sampleRowKept, sampleRowLate]⟩] g,
        (parseRow r).isOk = true) ∧
    parse_page [⟨currentGrid, [sampleRowKept, sampleRowLate]⟩] sampleToday =
      .ok ⟨[sampleIssueKept], [], []⟩ :=
  ⟨by decide, by
    rw [c1_retention_iff_filter
      [⟨currentGrid, [sampleRowKept, sampleRowLate]⟩] sampleToday (by decide)]
    rfl⟩

/-- Claim C2 is false as stated: a row whose start date is exactly
today + 2 days (with end date equal to today, well within
today - 2 days) parses but is dropped, because the comparison is the
strict `start.date() - today < timedelta(days=2)`.  Concretely with
today = 2024-01-10 and start = 2024-01-12 the past bucket comes out
empty. -/
theorem c2_window_counterexample :
    toOrdinal ⟨2024, 1, 12⟩ = toOrdinal ⟨2024, 1, 10⟩ + 2 ∧
    parseRow [cellT "Fault", cellT "CR12345", cellT "12/01/2024 00:00",
        cellT "10/01/2024 08:00", cellT "X1"] =
      .ok ⟨some "Fault", "CR12345", ⟨2024, 1, 12, 0, 0⟩,
           ⟨2024, 1, 10, 8, 0⟩, some "X1"⟩ ∧
    parse_page [⟨pastGrid, [[cellT "Fault", cellT "CR12345",
        cellT "12/01/2024 00:00", cellT "10/01/2024 08:00", cellT "X1"]]⟩]
      ⟨2024, 1, 10⟩ = .ok ⟨[], [], []⟩ :=
  ⟨by decide, rfl, rfl⟩

/-- Claim C2 (amended): the recency filter retains exactly the issues
whose start-date ordinal is at most today's ordinal + 1 and whose
end-date ordinal is at least today's ordinal - 1 — i.e. start no later
than today + 1 day and end no earlier than today - 1 day; a start of
today + 2 days is already dropped. -/
theorem c2_window_amended (today : Date) (i : Issue) :
    keep today i = true ↔
      (toOrdinal (dateOf i.start) ≤ toOrdinal today + 1 ∧
       toOrdinal today ≤ toOrdinal (dateOf i.end_) + 1) := by
  simp only [keep, Bool.and_eq_true, decide_eq_true_eq]
  omega

/-- Claim C3: on success, every bucket equals the in-order filtered
parse of the rows of its own source table: the bucket is inherited
from provenance (which table the row came from), not recomputed from
the record's dates, and row order is the source order with no
resorting. -/
theorem c3_bucket_provenance (doc : List Table) (today : Date) (b : Issues)
    (h : parse_page doc today = .ok b) :
    b.current = extractKept today (tableRows doc currentGrid) ∧
    b.planned = extractKept today (tableRows doc plannedGrid) ∧
    b.past = extractKept today (tableRows doc pastGrid) := by
  obtain ⟨-, rfl⟩ := (parse_page_ok_iff doc today b).mp h
  exact ⟨rfl, rfl, rfl⟩

theorem c3_bucket_provenance_witness :
    parse_page [⟨currentGrid, [sampleRowKept, sampleRowLate]⟩] sampleToday =
      .ok ⟨[sampleIssueKept], [], []⟩ ∧
    ([sampleIssueKept] = extractKept sampleToday
        (tableRows [⟨currentGrid, [sampleRowKept, sampleRowLate]⟩] currentGrid) ∧
     ([] : List Issue) = extractKept sampleToday
        (tableRows [⟨currentGrid, [sampleRowKept, sampleRowLate]⟩] plannedGrid) ∧
     ([] : List Issue) = extractKept sampleToday
        (tableRows [⟨currentGrid, [sampleRowKept, sampleRowLate]⟩] pastGrid)) :=
  ⟨rfl,
   c3_bucket_provenance [⟨currentGrid, [sampleRowKept, sampleRowLate]⟩]
     sampleToday ⟨[sampleIssueKept], [], []⟩ rfl⟩

/-- Claim C4: a row with only 4 cells in any recognized table makes the
whole extraction fail with `RowFormatError`: there is no per-row
recovery and no partial result; the error surfaces to the caller. -/
theorem c4_short_row_fails (doc : List Table) (today : Date) (g : String)
    (hg : g ∈ [pastGrid, plannedGrid, currentGrid])
    (h : ∃ r ∈ tableRows doc g, r.length = 4) :
    parse_page doc today = .error .rowFormatError := by
  obtain ⟨r, hr, hlen⟩ := h
  cases hp : parse_page doc today with
  | error e => rw [pageError_eq e]
  | ok b =>
    obtain ⟨hall, -⟩ := (parse_page_ok_iff doc today b).mp hp
    have hok := hall g hg r hr
    rw [parseRow_of_short (by omega)] at hok
    simp [Except.isOk, Except.toBool] at hok

theorem c4_short_row_fails_witness :
    plannedGrid ∈ [pastGrid, plannedGrid, currentGrid] ∧
    (∃ r ∈ tableRows [⟨plannedGrid, [sampleRowShort]⟩] plannedGrid,
      r.length = 4) ∧
    parse_page [⟨plannedGrid, [sampleRowShort]⟩] sampleToday =
      .error .rowFormatError :=
  ⟨by decide, by decide,
   c4_short_row_fails [⟨plannedGrid, [sampleRowShort]⟩] sampleToday
     plannedGrid (by decide) (by decide)⟩

/-- Claim C6: a parsed row with start date equal to today + 1 day and
end date equal to today - 1 day (end before start) passes the recency
filter and is retained in the bucket of its source table. -/
theorem c6_end_before_start_retained (doc : List Table) (today : Date)
    (g : String) (r : List Cell) (i : Issue) (b : Issues)
    (hg : g ∈ [pastGrid, plannedGrid, currentGrid])
    (hr : r ∈ tableRows doc g)
    (hparse : parseRow r = .ok i)
    (hstart : toOrdinal (dateOf i.start) = toOrdinal today + 1)
    (hend : toOrdinal (dateOf i.end_) + 1 = toOrdinal today)
    (hok : parse_page doc today = .ok b) :
    i ∈ bucketFor g b := by
  obtain ⟨-, rfl⟩ := (parse_page_ok_iff doc today b).mp hok
  have hkeep : keep today i = true := by
    simp only [keep, Bool.and_eq_true, decide_eq_true_eq]
    omega
  have hmem : ∀ rows, r ∈ rows → i ∈ extractKept today rows := by
    intro rows hrow
    refine List.mem_filter.mpr ⟨?_, hkeep⟩
    exact List.mem_filterMap.mpr ⟨r, hrow, by rw [hparse]; rfl⟩
  simp only [List.mem_cons, List.not_mem_nil, or_false] at hg
  rcases hg with rfl | rfl | rfl
  · rw [(bucketFor_eq _).1]
    exact hmem _ hr
  · rw [(bucketFor_eq _).2.1]
    exact hmem _ hr
  · rw [(bucketFor_eq _).2.2]
    exact hmem _ hr

theorem c6_end_before_start_retained_witness :
    parseRow [cellT "Fault", cellT "CR77777", cellT "11/01/2024 08:00",
        cellT "09/01/2024 18:00", cellT "Z9"] =
      .ok ⟨some "Fault", "CR77777", ⟨2024, 1, 11, 8, 0⟩,
           ⟨2024, 1, 9, 18, 0⟩, some "Z9"⟩ ∧
    toOrdinal (dateOf ⟨2024, 1, 11, 8, 0⟩) = toOrdinal sampleToday + 1 ∧
    toOrdinal (dateOf ⟨2024, 1, 9, 18, 0⟩) + 1 = toOrdinal sampleToday ∧
    ⟨some "Fault", "CR77777", ⟨2024, 1, 11, 8, 0⟩, ⟨2024, 1, 9, 18, 0⟩,
      some "Z9"⟩ ∈ bucketFor pastGrid
        ⟨[], [], [⟨some "Fault", "CR77777", ⟨2024, 1, 11, 8, 0⟩,
                   ⟨2024, 1, 9, 18, 0⟩, some "Z9"⟩]⟩ :=
  ⟨rfl, by decide, by decide,
   c6_end_before_start_retained
     [⟨pastGrid, [[cellT "Fault", cellT "CR77777", cellT "11/01/2024 08:00",
        cellT "09/01/2024 18:00", cellT "Z9"]]⟩]
     sampleToday pastGrid
     [cellT "Fault", cellT "CR77777", cellT "11/01/2024 08:00",
        cellT "09/01/2024 18:00", cellT "Z9"]
     ⟨some "Fault", "CR77777", ⟨2024, 1, 11, 8, 0⟩, ⟨2024, 1, 9, 18, 0⟩,
       some "Z9"⟩
     ⟨[], [], [⟨some "Fault", "CR77777", ⟨2024, 1, 11, 8, 0⟩,
                ⟨2024, 1, 9, 18, 0⟩, some "Z9"⟩]⟩
     (by decide) (by decide) rfl (by decide) (by decide) rfl⟩

/-- Claim C7: a recognized table that is absent from the document or
has zero body rows yields an empty bucket rather than an error: as
long as the rows of the (other) tables parse, extraction succeeds,
that table's bucket is `[]`, and every bucket is still computed from
its own table alone, so the others are unaffected. -/
theorem c7_missing_table_empty (doc : List Table) (today : Date) (g : String)
    (hg : g ∈ [pastGrid, plannedGrid, currentGrid])
    (hempty : tableRows doc g = [])
    (hall : ∀ g' ∈ [pastGrid, plannedGrid, currentGrid],
      ∀ r ∈ tableRows doc g', (parseRow r).isOk = true) :
    ∃ b, parse_page doc today = .ok b ∧ bucketFor g b = [] ∧
      ∀ g' ∈ [pastGrid, plannedGrid, currentGrid],
        bucketFor g' b = extractKept today (tableRows doc g') := by
  refine ⟨_, (parse_page_ok_iff doc today _).mpr ⟨hall, rfl⟩, ?_, ?_⟩
  · simp only [List.mem_cons, List.not_mem_nil, or_false] at hg
    rcases hg with rfl | rfl | rfl
    · rw [(bucketFor_eq _).1]
      rw [hempty]
      rfl
    · rw [(bucketFor_eq _).2.1]
      rw [hempty]
      rfl
    · rw [(bucketFor_eq _).2.2]
      rw [hempty]
      rfl
  · intro g' hg'
    simp only [List.mem_cons, List.not_mem_nil, or_false] at hg'
    rcases hg' with rfl | rfl | rfl
    · exact (bucketFor_eq _).1
    · exact (bucketFor_eq _).2.1
    · exact (bucketFor_eq _).2.2

theorem c7_missing_table_empty_witness :
    pastGrid ∈ [pastGrid, plannedGrid, currentGrid] ∧
    tableRows [⟨currentGrid, [sampleRowKept]⟩] pastGrid = [] ∧
    (∃ b, parse_page [⟨currentGrid, [sampleRowKept]⟩] sampleToday = .ok b ∧
      bucketFor pastGrid b = [] ∧
      ∀ g' ∈ [pastGrid, plannedGrid, currentGrid],
        bucketFor g' b = extractKept sampleToday
          (tableRows [⟨currentGrid, [sampleRowKept]⟩] g')) :=
  ⟨by decide, by decide,
   c7_missing_table_empty [⟨currentGrid, [sampleRowKept]⟩] sampleToday
     pastGrid (by decide) (by decide) (by decide)⟩

/-- Claim C9: the reporter's details-URL suffix `reference[2:]` is
total — for a reference shorter than two characters it is the empty
string — and `report` always completes, emitting exactly one line per
current issue (its detail message is built but never printed) and two
lines per planned or past issue. -/
theorem c9_report_total (issues : Issues) (ref : String) :
    (ref.length < 2 → outageId ref = "") ∧
    (report issues).length =
      issues.current.length + 2 * issues.planned.length +
        2 * issues.past.length := by
  constructor
  · intro h
    unfold outageId
    have hd : ref.data.drop 2 = [] := by
      rw [List.drop_eq_nil_iff]
      exact Nat.le_of_lt h
    rw [hd]
  · simp only [report, List.length_append, List.length_map,
      length_flatMap_pair]

theorem c9_report_total_witness :
    ("a".length < 2 → outageId "a" = "") ∧
    (report ⟨[sampleIssueKept], [], []⟩).length =
      [sampleIssueKept].length + 2 * ([] : List Issue).length +
        2 * ([] : List Issue).length :=
  c9_report_total ⟨[sampleIssueKept], [], []⟩ "a"

/-- Claim C10: extraction reads only the first five cells of each row:
two documents whose recognized tables have the same number of rows,
agreeing cellwise on the first five cells, produce identical results
on the same day. -/
theorem c10_first_five_cells (doc1 doc2 : List Table) (today : Date)
    (h : ∀ g ∈ [pastGrid, plannedGrid, currentGrid],
      List.Forall₂ (fun a b => a.take 5 = b.take 5)
        (tableRows doc1 g) (tableRows doc2 g)) :
    parse_page doc1 today = parse_page doc2 today := by
  unfold parse_page
  rw [parseTable_congr today (h pastGrid (by simp)),
      parseTable_congr today (h plannedGrid (by simp)),
      parseTable_congr today (h currentGrid (by simp))]

theorem c10_first_five_cells_witness :
    (∀ g ∈ [pastGrid, plannedGrid, currentGrid],
      List.Forall₂ (fun a b => a.take 5 = b.take 5)
        (tableRows [⟨currentGrid, [sampleRowKept ++ [cellT "extra"]]⟩] g)
        (tableRows [⟨currentGrid, [sampleRowKept]⟩] g)) ∧
    parse_page [⟨currentGrid, [sampleRowKept ++ [cellT "extra"]]⟩]
        sampleToday =
      parse_page [⟨currentGrid, [sampleRowKept]⟩] sampleToday := by
  constructor
  · intro g hg
    simp only [List.mem_cons, List.not_mem_nil, or_false] at hg
    rcases hg with rfl | rfl | rfl
    · exact List.Forall₂.nil
    · exact List.Forall₂.nil
    · exact List.Forall₂.cons (by decide) List.Forall₂.nil
  · refine c10_first_five_cells _ _ sampleToday ?_
    intro g hg
    simp only [List.mem_cons, List.not_mem_nil, or_false] at hg
    rcases hg with rfl | rfl | rfl
    · exact List.Forall₂.nil
    · exact List.Forall₂.nil
    · exact List.Forall₂.cons (by decide) List.Forall₂.nil

/-- Claim C8: round-trip — for every date-time with minute precision
and valid calendar fields, parsing its canonical zero-padded
`DD/MM/YYYY HH:MM` rendering returns the same date-time. -/
theorem c8_round_trip (y mo d h mi : Nat) (hy1 : 1 ≤ y) (hy2 : y ≤ 9999)
    (hmo1 : 1 ≤ mo) (hmo2 : mo ≤ 12) (hd1 : 1 ≤ d)
    (hd2 : d ≤ daysInMonth y mo) (hh : h ≤ 23) (hmi1 : mi ≤ 59) :
    parse_date (renderFixed ⟨y, mo, d, h, mi⟩) = some ⟨y, mo, d, h, mi⟩ := by
  have h31 := daysInMonth_le_31 y mo
  have hd100 : d < 100 := by omega
  have hmo100 : mo < 100 := by omega
  have hy4 : y < 10000 := by omega
  have hh100 : h < 100 := by omega
  have hmi100 : mi < 100 := by omega
  have key := parseDateChars_of_shape (pad2 d) (pad2 mo) (pad4 y) [' ']
    (pad2 h) (pad2 mi)
    (pad2_all_digit hd100) (pad2_all_digit hmo100) (pad4_all_digit hy4)
    (by intro c hc; simp only [List.mem_singleton] at hc; subst hc; decide)
    (pad2_all_digit hh100) (pad2_all_digit hmi100)
    (by simp [pad2]) (by rw [digitsVal_pad2 hd100]; omega)
    (by rw [digitsVal_pad2 hd100]; omega)
    (by simp [pad2]) (by rw [digitsVal_pad2 hmo100]; omega)
    (by rw [digitsVal_pad2 hmo100]; omega)
    (by simp [pad4]) (by simp)
    (by simp [pad2]) (by simp [pad2]) (by rw [digitsVal_pad2 hh100]; omega)
    (by simp [pad2]) (by simp [pad2]) (by rw [digitsVal_pad2 hmi100]; omega)
    (by rw [digitsVal_pad4 hy4]; omega)
    (by rw [digitsVal_pad2 hd100, digitsVal_pad4 hy4, digitsVal_pad2 hmo100]
        exact hd2)
  rw [digitsVal_pad2 hd100, digitsVal_pad2 hmo100, digitsVal_pad4 hy4,
    digitsVal_pad2 hh100, digitsVal_pad2 hmi100] at key
  show parseDateChars
    (pad2 d ++ '/' :: pad2 mo ++ '/' :: pad4 y ++ ' ' :: pad2 h ++
      ':' :: pad2 mi) = some ⟨y, mo, d, h, mi⟩
  simp only [List.cons_append, List.append_assoc, List.singleton_append]
    at key ⊢
  exact key

theorem c8_round_trip_witness :
    (1 ≤ 2024 ∧ 2024 ≤ 9999 ∧ 1 ≤ 2 ∧ 2 ≤ 12 ∧ 1 ≤ 29 ∧
      29 ≤ daysInMonth 2024 2 ∧ 23 ≤ 23 ∧ 59 ≤ 59) ∧
    parse_date (renderFixed ⟨2024, 2, 29, 23, 59⟩) =
      some ⟨2024, 2, 29, 23, 59⟩ :=
  ⟨by decide,
   c8_round_trip 2024 2 29 23 59 (by decide) (by decide) (by decide)
     (by decide) (by decide) (by decide) (by decide) (by decide)⟩

end ZenTracker
